import Mathlib

/-!
Shallow embedding of the request-validation-and-persistence pipeline of
`src/server.js` (Express + express-validator + mariadb): the field-validator
chains, the mutation builders, the outcome reconciliation against the store
result, and the per-request connection events (acquire / query / release),
exactly in the order the handlers perform them.
-/

/-- A validation failure record: the field name and the human-readable
message (express-validator's param / msg pair). -/
structure ValidationError where
  field : String
  message : String
deriving DecidableEq

/-- The JSON shape of a response body in `src/server.js`: a success object
with a message key, an error object with an error key, or a validation-error
object carrying an errors list. -/
inductive Body where
  | msg (message : String)
  | err (error : String)
  | errs (errors : List ValidationError)
deriving DecidableEq

/-- An HTTP response: status code and JSON body. -/
structure Response where
  status : Nat
  body : Body
deriving DecidableEq

/-- Observable resource events of one request, in program order: connection
acquisition, statement execution (with its text and ordered bound values),
and connection release. -/
inductive Event where
  | acquire
  | query (stmt : String) (values : List String)
  | release
deriving DecidableEq

/-- The store's execution result as read by the handlers:
result.affectedRows and result.warningStatus. -/
structure ExecResult where
  affectedRows : Nat
  warningStatus : Nat
deriving DecidableEq

/-- Outcome of the single statement a pipeline executes: a result object, or
a thrown store error (caught by the handler's catch block). -/
inductive ExecOutcome where
  | ok (r : ExecResult)
  | err
deriving DecidableEq

/-- The escape sanitizer's per-character replacement (validator.js escape):
ampersand, double quote, single quote, angle brackets, slash, backslash and
backtick become HTML entities; everything else is kept. -/
def escapeChar (c : Char) : String :=
  if c = Char.ofNat 38 then "&amp;"
  else if c = Char.ofNat 34 then "&quot;"
  else if c = Char.ofNat 39 then "&#x27;"
  else if c = Char.ofNat 60 then "&lt;"
  else if c = Char.ofNat 62 then "&gt;"
  else if c = Char.ofNat 47 then "&#x2F;"
  else if c = Char.ofNat 92 then "&#x5C;"
  else if c = Char.ofNat 96 then "&#96;"
  else String.mk [c]

/-- Escape of a character list, folding the per-character replacement. -/
def escapeList (l : List Char) : String :=
  l.foldr (fun c acc => escapeChar c ++ acc) ""

/-- The escape sanitizer on a string. -/
def escape (s : String) : String := escapeList s.data

/-- The trim sanitizer: strip leading and trailing whitespace, as JavaScript
String.prototype.trim does. -/
def jsTrim (s : String) : String :=
  String.mk (((s.data.dropWhile Char.isWhitespace).reverse.dropWhile Char.isWhitespace).reverse)

/-- Failure condition of a `.trim().isLength({min, max})` validator chain on
an optional request field: an absent field fails (no .optional() in the
source chains), and a present field fails when its trimmed length is outside
the bounds. -/
def lenFails (minL maxL : Nat) (v : Option String) : Bool :=
  match v with
  | none => true
  | some s => !(decide (minL ≤ (jsTrim s).length) && decide ((jsTrim s).length ≤ maxL))

/-- One `.trim().isLength({min, max}).escape()` chain as a validator:
produces the error record (field name plus message) exactly when the chain
fails. -/
def checkLen (f msg : String) (minL maxL : Nat) (v : Option String) : Option ValidationError :=
  if lenFails minL maxL v then some ⟨f, msg⟩ else none

/-- Failure condition of a bare `.isLength({min, max})` chain (no trim), as
used on custCode. -/
def lenFailsRaw (minL maxL : Nat) (s : String) : Bool :=
  !(decide (minL ≤ s.length) && decide (s.length ≤ maxL))

/-- A bare `.isLength({min, max})` chain on an always-present path
parameter. -/
def checkLenRaw (f msg : String) (minL maxL : Nat) (s : String) : Option ValidationError :=
  if lenFailsRaw minL maxL s then some ⟨f, msg⟩ else none

/-- Value written back into the request by the trim and escape sanitizers of
a chain (absent fields stay absent). -/
def sanitize (v : Option String) : Option String :=
  v.map fun s => escape (jsTrim s)

/-- JavaScript truthiness of a destructured request field: undefined and the
empty string are falsy, every other string is truthy. -/
def truthy : Option String → Bool
  | none => false
  | some s => !(s == "")

/-- Request body of POST /api/company; absent JSON fields are none. -/
structure PostBody where
  companyId : Option String
  companyName : Option String
  companyCity : Option String
deriving DecidableEq

/-- Request body of PATCH and PUT /api/company/:companyId; absent JSON
fields are none (the path parameter is carried separately). -/
structure CompanyBody where
  companyName : Option String
  companyCity : Option String
deriving DecidableEq

/-- validationResult(req).array() for POST /api/company: the accumulated
error records of the three body chains, in declaration order. -/
def postErrors (b : PostBody) : List ValidationError :=
  [checkLen "companyId" "Invalid value" 1 6 b.companyId,
   checkLen "companyName" "Invalid value" 1 25 b.companyName,
   checkLen "companyCity" "Invalid value" 1 25 b.companyCity].filterMap id

/-- validationResult(req).array() for PATCH and PUT /api/company/:companyId:
the param chain (with its withMessage text) followed by the two body chains,
in declaration order. -/
def keyedErrors (companyId : String) (b : CompanyBody) : List ValidationError :=
  [checkLen "companyId" "ID must be between 1 and 6 characters" 1 6 (some companyId),
   checkLen "companyName" "Invalid value" 1 25 b.companyName,
   checkLen "companyCity" "Invalid value" 1 25 b.companyCity].filterMap id

/-- validationResult(req).array() for DELETE /api/customers/:custCode. -/
def deleteErrors (custCode : String) : List ValidationError :=
  [checkLenRaw "custCode" "Customer code must be 6 characters long" 6 6 custCode].filterMap id

/-- Statement text of the POST /api/company insert. -/
def insertStmt : String :=
  "INSERT INTO company (COMPANY_ID, COMPANY_NAME, COMPANY_CITY) VALUES (?, ?, ?)"

/-- Statement text of the PUT /api/company/:companyId upsert. -/
def upsertStmt : String :=
  "INSERT INTO company (COMPANY_ID, COMPANY_NAME, COMPANY_CITY) VALUES (?, ?, ?) ON DUPLICATE KEY UPDATE COMPANY_NAME = ?, COMPANY_CITY = ?"

/-- Statement text of the DELETE /api/customers/:custCode delete. -/
def deleteStmt : String := "DELETE FROM customer WHERE CUST_CODE = ?"

/-- The PATCH mutation builder (lines 174-188 of src/server.js): pushes
COMPANY_NAME and COMPANY_CITY assignment fragments and their values for the
truthy fields, joins them with a comma, and appends the key as the match
condition and last bound value. -/
def buildUpdate (companyName companyCity : Option String) (companyId : String) :
    String × List String :=
  let updateFields :=
    (if truthy companyName then ["COMPANY_NAME = ?"] else []) ++
    (if truthy companyCity then ["COMPANY_CITY = ?"] else [])
  let values :=
    (if truthy companyName then [companyName.getD ""] else []) ++
    (if truthy companyCity then [companyCity.getD ""] else [])
  ("UPDATE company SET " ++ String.intercalate ", " updateFields ++ " WHERE COMPANY_ID = ?",
   values ++ [companyId])

/-- Handler of POST /api/company: acquire the connection, then check
validationResult; on failure answer 400 with the error list (before the
try/finally, so no release happens); otherwise run the insert inside
try/catch/finally: 201 on success, 500 on a store error, release in both
cases. -/
def postCompany (b : PostBody) (ex : ExecOutcome) : Response × List Event :=
  let errors := postErrors b
  if errors.isEmpty then
    let companyId := (sanitize b.companyId).getD ""
    let companyName := (sanitize b.companyName).getD ""
    let companyCity := (sanitize b.companyCity).getD ""
    let ev := [Event.acquire, Event.query insertStmt [companyId, companyName, companyCity],
               Event.release]
    match ex with
    | .ok _ => (⟨201, Body.msg "Company successfully added"⟩, ev)
    | .err => (⟨500, Body.err "Server error"⟩, ev)
  else (⟨400, Body.errs errors⟩, [Event.acquire])

/-- Handler of PATCH /api/company/:companyId: acquire, validate (400 with
errors list on failure, before the try/finally), then if neither destructured
field is truthy answer 400 with a single error message (also before the
try/finally), else build the update, execute it, and reconcile: 404 when no
row was affected, 200 otherwise, 500 on a store error; release only on the
executed paths. -/
def patchCompany (companyIdRaw : String) (b : CompanyBody) (ex : ExecOutcome) :
    Response × List Event :=
  let errors := keyedErrors companyIdRaw b
  if errors.isEmpty then
    let companyId := escape (jsTrim companyIdRaw)
    let companyName := sanitize b.companyName
    let companyCity := sanitize b.companyCity
    if !truthy companyName && !truthy companyCity then
      (⟨400, Body.err "Provide at least one field to update (companyName or companyCity)"⟩,
       [Event.acquire])
    else
      let built := buildUpdate companyName companyCity companyId
      let ev := [Event.acquire, Event.query built.1 built.2, Event.release]
      match ex with
      | .ok r =>
        if r.affectedRows = 0 then (⟨404, Body.err "Company not found"⟩, ev)
        else (⟨200, Body.msg "Company updated successfully"⟩, ev)
      | .err => (⟨500, Body.err "Server error"⟩, ev)
  else (⟨400, Body.errs errors⟩, [Event.acquire])

/-- The PUT outcome reconciler (lines 267-271 of src/server.js): exactly one
affected row and warning status zero means a brand-new insert (201, Company
added); anything else means the duplicate-key update branch ran (200,
Company updated). -/
def upsertReconcile (r : ExecResult) : Response :=
  if r.affectedRows = 1 ∧ r.warningStatus = 0 then ⟨201, Body.msg "Company added"⟩
  else ⟨200, Body.msg "Company updated"⟩

/-- Handler of PUT /api/company/:companyId: acquire, validate (400 with
errors list on failure, before the try/finally), then execute the upsert
with the five bound values [id, name, city, name, city] and reconcile via
upsertReconcile; 500 on a store error; release only on the executed paths. -/
def putCompany (companyIdRaw : String) (b : CompanyBody) (ex : ExecOutcome) :
    Response × List Event :=
  let errors := keyedErrors companyIdRaw b
  if errors.isEmpty then
    let companyId := escape (jsTrim companyIdRaw)
    let companyName := (sanitize b.companyName).getD ""
    let companyCity := (sanitize b.companyCity).getD ""
    let vals := [companyId, companyName, companyCity, companyName, companyCity]
    let ev := [Event.acquire, Event.query upsertStmt vals, Event.release]
    match ex with
    | .ok r => (upsertReconcile r, ev)
    | .err => (⟨500, Body.err "Server error"⟩, ev)
  else (⟨400, Body.errs errors⟩, [Event.acquire])

/-- Handler of DELETE /api/customers/:custCode: acquire, validate (400 with
errors list on failure, before the try/finally), then execute the delete and
reconcile: 404 when no row was affected, 200 otherwise, 500 on a store
error; release only on the executed paths. -/
def deleteCustomer (custCode : String) (ex : ExecOutcome) : Response × List Event :=
  let errors := deleteErrors custCode
  if errors.isEmpty then
    let ev := [Event.acquire, Event.query deleteStmt [custCode], Event.release]
    match ex with
    | .ok r =>
      if r.affectedRows = 0 then (⟨404, Body.err "Customer not found"⟩, ev)
      else (⟨200, Body.msg "Customer deleted successfully"⟩, ev)
    | .err => (⟨500, Body.err "Internal server error"⟩, ev)
  else (⟨400, Body.errs errors⟩, [Event.acquire])

/-- A row of the company table held by the external store. -/
structure CompanyRow where
  companyId : String
  companyName : String
  companyCity : String
deriving DecidableEq

/-- Modelled from the spec: the external relational store (out of scope of
the repository, specified at its interface boundary) executing the
INSERT ... ON DUPLICATE KEY UPDATE upsert statement. A fresh key inserts the
full row and reports one affected row with no duplicate-key signal; an
existing key overwrites only the two attribute columns named in the UPDATE
clause and signals the duplicate-key condition, reporting two affected rows
on a value change and zero on a no-op overwrite. -/
def execUpsert (t : List CompanyRow) (k n c : String) : ExecResult × List CompanyRow :=
  match t.find? (fun r => r.companyId == k) with
  | none => (⟨1, 0⟩, t ++ [⟨k, n, c⟩])
  | some row =>
      (⟨if row.companyName = n ∧ row.companyCity = c then 0 else 2, 1⟩,
       t.map fun r => if r.companyId = k then ⟨r.companyId, n, c⟩ else r)

/-- PUT /api/company/:companyId run against the modelled store: validation
as in putCompany, then the upsert statement executed by execUpsert on the
sanitized bound values, reconciled by upsertReconcile. Returns the response
and the table after the request. -/
def putCompanyDB (companyIdRaw : String) (b : CompanyBody) (t : List CompanyRow) :
    Response × List CompanyRow :=
  if (keyedErrors companyIdRaw b).isEmpty then
    (upsertReconcile (execUpsert t (escape (jsTrim companyIdRaw))
        ((sanitize b.companyName).getD "") ((sanitize b.companyCity).getD "")).1,
     (execUpsert t (escape (jsTrim companyIdRaw))
        ((sanitize b.companyName).getD "") ((sanitize b.companyCity).getD "")).2)
  else (⟨400, Body.errs (keyedErrors companyIdRaw b)⟩, t)

theorem escapeChar_length (c : Char) : 1 ≤ (escapeChar c).length := by
  unfold escapeChar
  repeat' split
  all_goals first | decide | exact Nat.le.refl

theorem escape_ne_empty (s : String) (h : 1 ≤ s.length) : escape s ≠ "" := by
  cases s with
  | mk data =>
    cases data with
    | nil => exact absurd h (by decide)
    | cons c l =>
      intro heq
      have hlen : 1 ≤ (escape (String.mk (c :: l))).length := by
        show 1 ≤ (escapeList (c :: l)).length
        have hstep : escapeList (c :: l) = escapeChar c ++ escapeList l := rfl
        rw [hstep, String.length_append]
        exact Nat.le_trans (escapeChar_length c) (Nat.le_add_right _ _)
      rw [heq] at hlen
      exact absurd hlen (by decide)

theorem checkLen_eq_none {f m : String} {a b : Nat} {v : Option String} :
    checkLen f m a b v = none ↔ lenFails a b v = false := by
  unfold checkLen
  cases h : lenFails a b v <;> simp [h]

theorem keyed_valid {k : String} {b : CompanyBody}
    (h : (keyedErrors k b).isEmpty = true) :
    lenFails 1 6 (some k) = false ∧ lenFails 1 25 b.companyName = false ∧
      lenFails 1 25 b.companyCity = false := by
  have hnil : keyedErrors k b = [] := by
    cases hk : keyedErrors k b with
    | nil => rfl
    | cons x xs => rw [hk] at h; simp [List.isEmpty] at h
  unfold keyedErrors at hnil
  refine ⟨?_, ?_, ?_⟩
  · have hm := List.filterMap_eq_nil_iff.mp hnil
      (checkLen "companyId" "ID must be between 1 and 6 characters" 1 6 (some k)) (by simp)
    exact (@checkLen_eq_none "companyId" "ID must be between 1 and 6 characters" 1 6
      (some k)).mp (by simpa using hm)
  · have hm := List.filterMap_eq_nil_iff.mp hnil
      (checkLen "companyName" "Invalid value" 1 25 b.companyName) (by simp)
    exact (@checkLen_eq_none "companyName" "Invalid value" 1 25 b.companyName).mp
      (by simpa using hm)
  · have hm := List.filterMap_eq_nil_iff.mp hnil
      (checkLen "companyCity" "Invalid value" 1 25 b.companyCity) (by simp)
    exact (@checkLen_eq_none "companyCity" "Invalid value" 1 25 b.companyCity).mp
      (by simpa using hm)

theorem truthy_of_lenFails_one {v : Option String} {maxL : Nat}
    (h : lenFails 1 maxL v = false) : truthy (sanitize v) = true := by
  cases v with
  | none => simp [lenFails] at h
  | some s =>
    simp only [lenFails] at h
    have hlen : 1 ≤ (jsTrim s).length := by
      by_cases h1 : 1 ≤ (jsTrim s).length
      · exact h1
      · simp [h1] at h
    have hne := escape_ne_empty _ hlen
    simp [truthy, sanitize, hne]

theorem execUpsert_key_mem (t : List CompanyRow) (k n c : String) :
    ∃ r ∈ (execUpsert t k n c).2, r.companyId = k := by
  unfold execUpsert
  cases hf : t.find? (fun r => r.companyId == k) with
  | none => exact ⟨⟨k, n, c⟩, by simp, rfl⟩
  | some row =>
    have hmem := List.mem_of_find?_eq_some hf
    have hk : row.companyId = k := by simpa using List.find?_some hf
    refine ⟨⟨k, n, c⟩, ?_, rfl⟩
    have hrw : (⟨k, n, c⟩ : CompanyRow)
        = (fun r : CompanyRow => if r.companyId = k then ⟨r.companyId, n, c⟩ else r) row := by
      simp [hk]
    rw [hrw]
    simpa using List.mem_map_of_mem _ hmem

theorem execUpsert_dup_affected (t : List CompanyRow) (k n c : String)
    (h : ∃ r ∈ t, r.companyId = k) : (execUpsert t k n c).1.affectedRows ≠ 1 := by
  unfold execUpsert
  cases hf : t.find? (fun r => r.companyId == k) with
  | none =>
    obtain ⟨r, hr, hk⟩ := h
    have hcontra := List.find?_eq_none.mp hf r hr
    simp [hk] at hcontra
  | some row =>
    simp only []
    split <;> simp

theorem execUpsert_found_map (t : List CompanyRow) (k n c : String) (row : CompanyRow)
    (hf : t.find? (fun r => r.companyId == k) = some row) :
    (execUpsert t k n c).2
      = t.map (fun r => if r.companyId = k then ⟨r.companyId, n, c⟩ else r) := by
  unfold execUpsert
  rw [hf]

/-- C1: the upsert reconciliation. With validated fields, a store result of
exactly one affected row and no duplicate-key signal yields 201 with message
"Company added"; a duplicate-key signal yields 200 with message "Company
updated". Against the modelled store, a PUT on a fresh key answers 201
"Company added", and a second PUT on the same key (any attribute values,
identical ones included) answers 200 "Company updated", never 201. -/
theorem c1_upsert_disambiguation :
    (∀ (companyIdRaw : String) (b : CompanyBody) (r : ExecResult),
        (keyedErrors companyIdRaw b).isEmpty = true →
        r.affectedRows = 1 → r.warningStatus = 0 →
        (putCompany companyIdRaw b (.ok r)).1 = ⟨201, Body.msg "Company added"⟩) ∧
    (∀ (companyIdRaw : String) (b : CompanyBody) (r : ExecResult),
        (keyedErrors companyIdRaw b).isEmpty = true →
        r.warningStatus ≠ 0 →
        (putCompany companyIdRaw b (.ok r)).1 = ⟨200, Body.msg "Company updated"⟩) ∧
    (∀ (t : List CompanyRow) (companyIdRaw : String) (b : CompanyBody),
        (keyedErrors companyIdRaw b).isEmpty = true →
        (∀ r ∈ t, r.companyId ≠ escape (jsTrim companyIdRaw)) →
        (putCompanyDB companyIdRaw b t).1 = ⟨201, Body.msg "Company added"⟩) ∧
    (∀ (t : List CompanyRow) (companyIdRaw : String) (b1 b2 : CompanyBody),
        (keyedErrors companyIdRaw b1).isEmpty = true →
        (keyedErrors companyIdRaw b2).isEmpty = true →
        (putCompanyDB companyIdRaw b2 (putCompanyDB companyIdRaw b1 t).2).1
          = ⟨200, Body.msg "Company updated"⟩) := by
  refine ⟨?_, ?_, ?_, ?_⟩
  · intro k b r hv h1 h2
    simp [putCompany, hv, upsertReconcile, h1, h2]
  · intro k b r hv hw
    simp [putCompany, hv, upsertReconcile, hw]
  · intro t k b hv hfresh
    have hnone : t.find? (fun r => r.companyId == escape (jsTrim k)) = none :=
      List.find?_eq_none.mpr (fun x hx => by simp [hfresh x hx])
    simp [putCompanyDB, hv, execUpsert, hnone, upsertReconcile]
  · intro t k b1 b2 h1 h2
    simp only [putCompanyDB, h1, h2, if_true]
    have hmem := execUpsert_key_mem t (escape (jsTrim k))
      ((sanitize b1.companyName).getD "") ((sanitize b1.companyCity).getD "")
    have haff := execUpsert_dup_affected
      ((execUpsert t (escape (jsTrim k)) ((sanitize b1.companyName).getD "")
          ((sanitize b1.companyCity).getD "")).2)
      (escape (jsTrim k)) ((sanitize b2.companyName).getD "")
      ((sanitize b2.companyCity).getD "") hmem
    unfold upsertReconcile
    rw [if_neg (fun hc => haff hc.1)]

/-- C1 witness: the concrete scenario of the spec — PUT C1 twice with
identical attributes; the second call answers 200 "Company updated". -/
theorem c1_witness :
    (keyedErrors "C1" ⟨some "Acme", some "NY"⟩).isEmpty = true ∧
    (putCompanyDB "C1" ⟨some "Acme", some "NY"⟩
        ((putCompanyDB "C1" ⟨some "Acme", some "NY"⟩ []).2)).1
      = ⟨200, Body.msg "Company updated"⟩ :=
  ⟨by decide, c1_upsert_disambiguation.2.2.2 [] "C1" ⟨some "Acme", some "NY"⟩
    ⟨some "Acme", some "NY"⟩ (by decide) (by decide)⟩

/-- C2: on the validation-rejected path of POST /api/company the connection
is acquired and the handler returns 400 without ever releasing it — the
release-exactly-once discipline the claim states does not hold on that exit
path (the early return sits between the acquisition and the try/finally). -/
theorem c2_release_leak_eval :
    postCompany ⟨none, none, none⟩ (.ok ⟨1, 0⟩)
      = (⟨400, Body.errs [⟨"companyId", "Invalid value"⟩, ⟨"companyName", "Invalid value"⟩,
          ⟨"companyCity", "Invalid value"⟩]⟩, [Event.acquire]) ∧
    Event.acquire ∈ (postCompany ⟨none, none, none⟩ (.ok ⟨1, 0⟩)).2 ∧
    Event.release ∉ (postCompany ⟨none, none, none⟩ (.ok ⟨1, 0⟩)).2 := by decide

/-- C3 counterexample: a POST request that fails validation is answered 400,
yet the connection acquisition does occur — refuting the claim that no
resource is acquired on the validation-rejected path. -/
theorem c3_counterexample :
    (postCompany ⟨some "1234567", some "Acme", some "NY"⟩ (.ok ⟨1, 0⟩)).1.status = 400 ∧
    Event.acquire ∈ (postCompany ⟨some "1234567", some "Acme", some "NY"⟩ (.ok ⟨1, 0⟩)).2 := by
  decide

/-- C3 amended: on every mutation endpoint, a request failing field
validation is answered 400 and the pipeline terminates before any statement
executes (no query event, hence no store interaction), but only after the
connection has been acquired — the request trace is exactly the single
acquisition event. -/
theorem c3_amended_validation_short_circuit :
    (∀ (b : PostBody) (ex : ExecOutcome), (postErrors b).isEmpty = false →
        (postCompany b ex).1.status = 400 ∧ (postCompany b ex).2 = [Event.acquire]) ∧
    (∀ (k : String) (b : CompanyBody) (ex : ExecOutcome), (keyedErrors k b).isEmpty = false →
        (patchCompany k b ex).1.status = 400 ∧ (patchCompany k b ex).2 = [Event.acquire]) ∧
    (∀ (k : String) (b : CompanyBody) (ex : ExecOutcome), (keyedErrors k b).isEmpty = false →
        (putCompany k b ex).1.status = 400 ∧ (putCompany k b ex).2 = [Event.acquire]) ∧
    (∀ (code : String) (ex : ExecOutcome), (deleteErrors code).isEmpty = false →
        (deleteCustomer code ex).1.status = 400 ∧ (deleteCustomer code ex).2 = [Event.acquire]) := by
  refine ⟨?_, ?_, ?_, ?_⟩
  · intro b ex h
    simp [postCompany, h]
  · intro k b ex h
    simp [patchCompany, h]
  · intro k b ex h
    simp [putCompany, h]
  · intro code ex h
    simp [deleteCustomer, h]

/-- C3 amended witness: a POST with an over-long companyId instantiates the
amended statement. -/
theorem c3_amended_witness :
    (postErrors ⟨some "1234567", some "A", some "B"⟩).isEmpty = false ∧
    (postCompany ⟨some "1234567", some "A", some "B"⟩ ExecOutcome.err).1.status = 400 ∧
    (postCompany ⟨some "1234567", some "A", some "B"⟩ ExecOutcome.err).2 = [Event.acquire] :=
  ⟨by decide,
   (c3_amended_validation_short_circuit.1 ⟨some "1234567", some "A", some "B"⟩
      ExecOutcome.err (by decide)).1,
   (c3_amended_validation_short_circuit.1 ⟨some "1234567", some "A", some "B"⟩
      ExecOutcome.err (by decide)).2⟩

/-- C4: evaluating PATCH at a request that supplies exactly one valid
attribute field. The body validator chains carry no .optional(), so the
absent field fails isLength and the request is rejected 400 with a
validation error for the missing field — it never reaches the one-field
update the claim (and the handler's own precondition branch) intends. -/
theorem c4_one_field_patch_rejected_eval :
    patchCompany "ABC" ⟨some "NewName", none⟩ (.ok ⟨1, 0⟩)
      = (⟨400, Body.errs [⟨"companyCity", "Invalid value"⟩]⟩, [Event.acquire]) ∧
    patchCompany "ABC" ⟨none, some "Chicago"⟩ (.ok ⟨1, 0⟩)
      = (⟨400, Body.errs [⟨"companyName", "Invalid value"⟩]⟩, [Event.acquire]) := by decide

/-- C5 counterexample: a PUT upsert with companyCity absent is rejected 400
by field validation — the attribute fields are not optional on input,
contrary to the claim. -/
theorem c5_counterexample :
    putCompany "C9" ⟨some "Acme", none⟩ (.ok ⟨1, 0⟩)
      = (⟨400, Body.errs [⟨"companyCity", "Invalid value"⟩]⟩, [Event.acquire]) := by decide

/-- C5 amended: PUT requires both attribute fields — a request missing
either is answered 400 by field validation; and there is no separate
presence precondition: every request that passes validation reaches the
upsert statement. -/
theorem c5_amended_put_requires_both :
    (∀ (k : String) (b : CompanyBody) (ex : ExecOutcome),
        b.companyName = none ∨ b.companyCity = none → (putCompany k b ex).1.status = 400) ∧
    (∀ (k : String) (b : CompanyBody) (ex : ExecOutcome), (keyedErrors k b).isEmpty = true →
        (putCompany k b ex).2
          = [Event.acquire,
             Event.query upsertStmt
               [escape (jsTrim k), (sanitize b.companyName).getD "",
                (sanitize b.companyCity).getD "", (sanitize b.companyName).getD "",
                (sanitize b.companyCity).getD ""],
             Event.release]) := by
  constructor
  · intro k b ex habs
    cases hv : (keyedErrors k b).isEmpty with
    | false => simp [putCompany, hv]
    | true =>
      exfalso
      obtain ⟨_, hn, hc⟩ := keyed_valid hv
      rcases habs with h | h
      · rw [h] at hn
        simp [lenFails] at hn
      · rw [h] at hc
        simp [lenFails] at hc
  · intro k b ex hv
    cases ex with
    | ok r => simp [putCompany, hv]
    | err => simp [putCompany, hv]

/-- C5 amended witness: a PUT missing companyName is rejected 400; a PUT
with both fields reaches the upsert statement. -/
theorem c5_amended_witness :
    (putCompany "C8" ⟨none, some "NY"⟩ (.ok ⟨1, 0⟩)).1.status = 400 ∧
    (keyedErrors "C7" ⟨some "Acme", some "NY"⟩).isEmpty = true ∧
    (putCompany "C7" ⟨some "Acme", some "NY"⟩ (.ok ⟨1, 0⟩)).2
      = [Event.acquire,
         Event.query upsertStmt
           [escape (jsTrim "C7"), (sanitize (some "Acme")).getD "",
            (sanitize (some "NY")).getD "", (sanitize (some "Acme")).getD "",
            (sanitize (some "NY")).getD ""],
         Event.release] :=
  ⟨c5_amended_put_requires_both.1 "C8" ⟨none, some "NY"⟩ (.ok ⟨1, 0⟩) (Or.inl rfl),
   by decide,
   c5_amended_put_requires_both.2 "C7" ⟨some "Acme", some "NY"⟩ (.ok ⟨1, 0⟩) (by decide)⟩

/-- C6: when several field-validation rules fail, the 400 response carries
the full accumulated errors list: one field-and-message record per failing
rule, in the fields' declaration order, never truncated to the first
failure — on POST as well as on the keyed PATCH and PUT endpoints. -/
theorem c6_collect_all :
    (∀ (b : PostBody) (ex : ExecOutcome), 2 ≤ (postErrors b).length →
        (postCompany b ex).1 = ⟨400, Body.errs (postErrors b)⟩ ∧
        (postErrors b).map ValidationError.field
          = (if lenFails 1 6 b.companyId then ["companyId"] else []) ++
            (if lenFails 1 25 b.companyName then ["companyName"] else []) ++
            (if lenFails 1 25 b.companyCity then ["companyCity"] else [])) ∧
    (∀ (k : String) (b : CompanyBody) (ex : ExecOutcome), 2 ≤ (keyedErrors k b).length →
        (patchCompany k b ex).1 = ⟨400, Body.errs (keyedErrors k b)⟩ ∧
        (putCompany k b ex).1 = ⟨400, Body.errs (keyedErrors k b)⟩ ∧
        (keyedErrors k b).map ValidationError.field
          = (if lenFails 1 6 (some k) then ["companyId"] else []) ++
            (if lenFails 1 25 b.companyName then ["companyName"] else []) ++
            (if lenFails 1 25 b.companyCity then ["companyCity"] else [])) := by
  constructor
  · intro b ex hlen
    have hne : (postErrors b).isEmpty = false := by
      cases hpe : postErrors b with
      | nil => rw [hpe] at hlen; exact absurd hlen (by decide)
      | cons x xs => rfl
    refine ⟨by simp [postCompany, hne], ?_⟩
    cases h1 : lenFails 1 6 b.companyId <;> cases h2 : lenFails 1 25 b.companyName <;>
      cases h3 : lenFails 1 25 b.companyCity <;>
      simp [postErrors, checkLen, h1, h2, h3]
  · intro k b ex hlen
    have hne : (keyedErrors k b).isEmpty = false := by
      cases hpe : keyedErrors k b with
      | nil => rw [hpe] at hlen; exact absurd hlen (by decide)
      | cons x xs => rfl
    refine ⟨by simp [patchCompany, hne], by simp [putCompany, hne], ?_⟩
    cases h1 : lenFails 1 6 (some k) <;> cases h2 : lenFails 1 25 b.companyName <;>
      cases h3 : lenFails 1 25 b.companyCity <;>
      simp [keyedErrors, checkLen, h1, h2, h3]

/-- C6 witness: a POST failing on companyId and companyCity answers 400 with
both records, in field order. -/
theorem c6_witness :
    2 ≤ (postErrors ⟨none, some "x", none⟩).length ∧
    (postCompany ⟨none, some "x", none⟩ ExecOutcome.err).1
      = ⟨400, Body.errs (postErrors ⟨none, some "x", none⟩)⟩ ∧
    (postErrors ⟨none, some "x", none⟩).map ValidationError.field
      = ["companyId", "companyCity"] :=
  ⟨by decide,
   (c6_collect_all.1 ⟨none, some "x", none⟩ ExecOutcome.err (by decide)).1,
   by decide⟩

/-- C7: an executed keyed mutation reconciles by affected-row count — zero
rows yields 404 with the not-found error, one or more rows yields 200 with
the update (PATCH) or deletion (DELETE) message. -/
theorem c7_keyed_mutation_outcomes :
    (∀ (k : String) (b : CompanyBody) (r : ExecResult),
        (keyedErrors k b).isEmpty = true →
        (patchCompany k b (.ok r)).1
          = if r.affectedRows = 0 then ⟨404, Body.err "Company not found"⟩
            else ⟨200, Body.msg "Company updated successfully"⟩) ∧
    (∀ (code : String) (r : ExecResult),
        (deleteErrors code).isEmpty = true →
        (deleteCustomer code (.ok r)).1
          = if r.affectedRows = 0 then ⟨404, Body.err "Customer not found"⟩
            else ⟨200, Body.msg "Customer deleted successfully"⟩) := by
  constructor
  · intro k b r hv
    obtain ⟨_, hn, hc⟩ := keyed_valid hv
    have htn := truthy_of_lenFails_one hn
    have htc := truthy_of_lenFails_one hc
    by_cases h0 : r.affectedRows = 0 <;> simp [patchCompany, hv, htn, htc, h0]
  · intro code r hv
    by_cases h0 : r.affectedRows = 0 <;> simp [deleteCustomer, hv, h0]

/-- C7 witness: a PATCH affecting zero rows answers 404; a DELETE affecting
one row answers 200 with the deletion message. -/
theorem c7_witness :
    (keyedErrors "ABC" ⟨some "Acme", some "NY"⟩).isEmpty = true ∧
    (patchCompany "ABC" ⟨some "Acme", some "NY"⟩ (.ok ⟨0, 0⟩)).1
      = ⟨404, Body.err "Company not found"⟩ ∧
    (deleteErrors "CUST01").isEmpty = true ∧
    (deleteCustomer "CUST01" (.ok ⟨1, 0⟩)).1
      = ⟨200, Body.msg "Customer deleted successfully"⟩ :=
  ⟨by decide,
   by simpa using c7_keyed_mutation_outcomes.1 "ABC" ⟨some "Acme", some "NY"⟩ ⟨0, 0⟩ (by decide),
   by decide,
   by simpa using c7_keyed_mutation_outcomes.2 "CUST01" ⟨1, 0⟩ (by decide)⟩

/-- C8: the PATCH statement text is a function of the presence pattern of
the attribute fields alone — two field sets with the same truthiness
pattern yield identical text, whatever the values and the key — and the
field values appear solely in the ordered bound-values list, followed by
the key. -/
theorem c8_statement_shape_presence_only :
    (∀ (n1 c1 : Option String) (k1 : String) (n2 c2 : Option String) (k2 : String),
        truthy n1 = truthy n2 → truthy c1 = truthy c2 →
        (buildUpdate n1 c1 k1).1 = (buildUpdate n2 c2 k2).1) ∧
    (∀ (n c : Option String) (k : String),
        (buildUpdate n c k).2
          = (if truthy n then [n.getD ""] else []) ++
            (if truthy c then [c.getD ""] else []) ++ [k]) := by
  constructor
  · intro n1 c1 k1 n2 c2 k2 h1 h2
    simp [buildUpdate, h1, h2]
  · intro n c k
    simp [buildUpdate, List.append_assoc]

/-- C8 witness: two different companyName values with the same presence
pattern produce the same statement text. -/
theorem c8_witness :
    truthy (some "Acme Inc") = truthy (some "Zed") ∧
    (buildUpdate (some "Acme Inc") none "K1").1 = (buildUpdate (some "Zed") none "K2").1 :=
  ⟨by decide,
   c8_statement_shape_presence_only.1 (some "Acme Inc") none "K1" (some "Zed") none "K2"
     (by decide) rfl⟩

/-- C9: an upsert on an existing key leaves the key column of every row
unchanged (so the key stays unique), touches no other row, and preserves
the table's size — only the matched row's two attribute columns change. -/
theorem c9_upsert_frame :
    ∀ (t : List CompanyRow) (k n c : String), (∃ r ∈ t, r.companyId = k) →
      ((execUpsert t k n c).2.map CompanyRow.companyId = t.map CompanyRow.companyId) ∧
      (∀ r ∈ t, r.companyId ≠ k → r ∈ (execUpsert t k n c).2) ∧
      ((execUpsert t k n c).2.length = t.length) ∧
      ((t.map CompanyRow.companyId).Nodup →
        ((execUpsert t k n c).2.map CompanyRow.companyId).Nodup) := by
  intro t k n c h
  obtain ⟨r0, hr0, hk0⟩ := h
  have hfs : ∃ row, t.find? (fun r => r.companyId == k) = some row := by
    cases hf : t.find? (fun r => r.companyId == k) with
    | none =>
      have hb := List.find?_eq_none.mp hf r0 hr0
      rw [hk0] at hb
      simp at hb
    | some row => exact ⟨row, rfl⟩
  obtain ⟨row, hf⟩ := hfs
  have hmap := execUpsert_found_map t k n c row hf
  have hkeys : (execUpsert t k n c).2.map CompanyRow.companyId
      = t.map CompanyRow.companyId := by
    rw [hmap, List.map_map]
    apply List.map_congr_left
    intro r hr
    by_cases hrk : r.companyId = k <;> simp [Function.comp, hrk]
  refine ⟨hkeys, ?_, ?_, ?_⟩
  · intro r hr hne
    rw [hmap]
    have hm := List.mem_map_of_mem
      (fun r : CompanyRow => if r.companyId = k then ⟨r.companyId, n, c⟩ else r) hr
    simpa [hne] using hm
  · rw [hmap, List.length_map]
  · intro hnd
    rwa [hkeys]

/-- C9 witness: overwriting the single row keyed C1 keeps the key column. -/
theorem c9_witness :
    (∃ r ∈ [(⟨"C1", "Old", "LA"⟩ : CompanyRow)], r.companyId = "C1") ∧
    (execUpsert [(⟨"C1", "Old", "LA"⟩ : CompanyRow)] "C1" "New" "NY").2.map CompanyRow.companyId
      = ["C1"] :=
  ⟨by decide, by
    rw [(c9_upsert_frame [⟨"C1", "Old", "LA"⟩] "C1" "New" "NY" (by decide)).1]
    decide⟩

/-- C10 counterexample: a PATCH supplying neither attribute field is
answered 400 with the errors-list body produced by field validation, not
the single-message error object of the precondition branch. -/
theorem c10_counterexample :
    patchCompany "XYZ" ⟨none, none⟩ (.ok ⟨1, 0⟩)
      = (⟨400, Body.errs [⟨"companyName", "Invalid value"⟩, ⟨"companyCity", "Invalid value"⟩]⟩,
         [Event.acquire]) := by decide

/-- C10 amended: the precondition branch of PATCH — whose coded body is the
single-message object error "Provide at least one field to update
(companyName or companyCity)" — is unreachable, because every request that
passes field validation has both attribute fields truthy; a request
supplying neither field is rejected by field validation with the
errors-list body shape. -/
theorem c10_amended_precondition_branch_unreachable :
    (∀ (k : String) (b : CompanyBody) (ex : ExecOutcome),
        (patchCompany k b ex).1.body
          ≠ Body.err "Provide at least one field to update (companyName or companyCity)") ∧
    (∀ (k : String) (ex : ExecOutcome),
        (patchCompany k ⟨none, none⟩ ex).1.status = 400 ∧
        ∃ l, (patchCompany k ⟨none, none⟩ ex).1.body = Body.errs l) := by
  constructor
  · intro k b ex
    cases hv : (keyedErrors k b).isEmpty with
    | false => simp [patchCompany, hv]
    | true =>
      obtain ⟨_, hn, hc⟩ := keyed_valid hv
      have htn := truthy_of_lenFails_one hn
      have htc := truthy_of_lenFails_one hc
      cases ex with
      | ok r =>
        by_cases h0 : r.affectedRows = 0 <;> simp [patchCompany, hv, htn, htc, h0]
      | err => simp [patchCompany, hv, htn, htc]
  · intro k ex
    have hmem : (⟨"companyName", "Invalid value"⟩ : ValidationError)
        ∈ keyedErrors k ⟨none, none⟩ := by
      unfold keyedErrors
      refine List.mem_filterMap.mpr ⟨some ⟨"companyName", "Invalid value"⟩, ?_, rfl⟩
      simp [checkLen, lenFails]
    have hne : (keyedErrors k ⟨none, none⟩).isEmpty = false := by
      cases hke : keyedErrors k ⟨none, none⟩ with
      | nil => rw [hke] at hmem; simp at hmem
      | cons x xs => rfl
    exact ⟨by simp [patchCompany, hne],
      ⟨keyedErrors k ⟨none, none⟩, by simp [patchCompany, hne]⟩⟩

